import Mathlib

/-!
A shallow embedding of the `home-config` Rust library (`src/lib.rs`) and
proofs of the specified properties.

Modelling choices:
* A filesystem path is a list of string components together with a flag
  saying whether the path is absolute.  `FsPath.join` follows the semantics
  of Rust's `PathBuf::join`: joining an absolute path replaces the base.
* The home-directory resolver (`dirs::home_dir()`) is a parameter of type
  `Option FsPath`.  The Rust code calls `.expect(..)` on the result, which
  panics when the resolver fails; panicking construction is modelled by
  propagating `none` through the constructors, so a constructor returns
  `some handle` exactly when the resolver succeeded.
* The filesystem is an explicit state: an association list from absolute
  path components to file contents (lists of bytes, as `List Nat`), plus
  the list of existing directories.  Each `std::fs` primitive used by the
  library is modelled as a pure function returning its result together
  with the updated state, so that failures can still mutate state.
* Serde codecs are external collaborators; they appear as parameters
  `enc : T → Except ε (List Nat)` / `dec : List Nat → Except ε T`.
* `fs::read_to_string`'s UTF-8 validation is modelled by an executable
  UTF-8 encoder/decoder pair over `List Nat`.
-/

/-- The subset of `std::io::ErrorKind` values relevant to this library. -/
inductive ErrorKind where
  | NotFound
  | PermissionDenied
  | InvalidData
  | Other
deriving DecidableEq, Repr

/-- Model of `std::io::Error`: only the kind is observable here. -/
structure IoError where
  kind : ErrorKind
deriving DecidableEq, Repr

/-- Decidable equality for `Except`, needed to evaluate results. -/
instance {e a : Type} [DecidableEq e] [DecidableEq a] :
    DecidableEq (Except e a) := fun x y =>
  match x, y with
  | .ok u, .ok v =>
    if h : u = v then isTrue (by rw [h])
    else isFalse (by intro hc; cases hc; exact h rfl)
  | .error u, .error v =>
    if h : u = v then isTrue (by rw [h])
    else isFalse (by intro hc; cases hc; exact h rfl)
  | .ok _, .error _ => isFalse (by intro hc; cases hc)
  | .error _, .ok _ => isFalse (by intro hc; cases hc)

/-- Model of a filesystem path: component list plus absoluteness flag. -/
structure FsPath where
  absolute : Bool
  components : List String
deriving DecidableEq, Repr

/-- Model of `PathBuf::join`: an absolute right operand replaces the base. -/
def FsPath.join (a b : FsPath) : FsPath :=
  if b.absolute then b else ⟨a.absolute, a.components ++ b.components⟩

/-- Model of `Path::parent`: drop the last component; `none` when empty. -/
def FsPath.parent (p : FsPath) : Option FsPath :=
  match p.components with
  | [] => none
  | _ :: _ => some ⟨p.absolute, p.components.dropLast⟩

/-- Model of `fn home_dir() { dirs::home_dir().expect("get home dir") }`:
the `expect` panic is modelled by keeping the `Option`. -/
def home_dir (resolver : Option FsPath) : Option FsPath :=
  resolver

/-- The `HomeConfig` struct: it stores only the resolved path. -/
structure HomeConfig where
  path : FsPath
deriving DecidableEq, Repr

/-- Model of `HomeConfig::with_config_dir(app_name, file_name)`, i.e.
of `home_dir().join(".config").join(app_name).join(file_name)`. -/
def HomeConfig.with_config_dir (resolver : Option FsPath) (app_name : String)
    (file_name : FsPath) : Option HomeConfig :=
  (home_dir resolver).map fun h =>
    ⟨((h.join ⟨false, [".config"]⟩).join ⟨false, [app_name]⟩).join file_name⟩

/-- Model of `HomeConfig::with_file(p)`, i.e. of `home_dir().join(p)`. -/
def HomeConfig.with_file (resolver : Option FsPath) (p : FsPath) :
    Option HomeConfig :=
  (home_dir resolver).map fun h => ⟨h.join p⟩

/-- Association-list lookup of a file's contents by exact path. -/
def lookupFile : List (List String × List Nat) → List String → Option (List Nat)
  | [], _ => none
  | e :: rest, p => if e.1 = p then some e.2 else lookupFile rest p

/-- Insert-or-replace a file entry. -/
def setFile : List (List String × List Nat) → List String → List Nat →
    List (List String × List Nat)
  | [], p, d => [(p, d)]
  | e :: rest, p, d => if e.1 = p then (p, d) :: rest else e :: setFile rest p d

/-- Remove a file entry (every entry at that path, so that erasure
means the path has no file afterward even on redundant states). -/
def eraseFile : List (List String × List Nat) → List String →
    List (List String × List Nat)
  | [], _ => []
  | e :: rest, p =>
    if e.1 = p then eraseFile rest p else e :: eraseFile rest p

/-- Membership in the directory list. -/
def memDirs : List (List String) → List String → Bool
  | [], _ => false
  | d :: rest, p => if d = p then true else memDirs rest p

/-- All initial segments of a component list (the path and its ancestors). -/
def initsOf : List String → List (List String)
  | [] => [[]]
  | a :: rest => [] :: (initsOf rest).map (a :: ·)

/-- Append the directories in `qs` that are not yet present. -/
def addDirs : List (List String) → List (List String) → List (List String)
  | ds, [] => ds
  | ds, q :: qs => addDirs (if memDirs ds q then ds else ds ++ [q]) qs

/-- Model of the filesystem state: files (path components to byte
contents) and directories.  Paths of handles are absolute, so the key is
just the component list; `[]` stands for the root, which always exists. -/
structure FileSys where
  files : List (List String × List Nat)
  dirs : List (List String)
deriving DecidableEq, Repr

/-- A file exists at `p`. -/
def FileSys.hasFile (fs : FileSys) (p : List String) : Bool :=
  (lookupFile fs.files p).isSome

/-- A directory exists at `p` (the root `[]` always exists). -/
def FileSys.hasDir (fs : FileSys) (p : List String) : Bool :=
  p.isEmpty || memDirs fs.dirs p

/-- Model of `Path::exists`: something (file or directory) is at `p`. -/
def FileSys.pathExists (fs : FileSys) (p : List String) : Bool :=
  fs.hasFile p || fs.hasDir p

/-- Model of reading a file's whole contents (`File::open` + read):
fails with `NotFound` when nothing exists at the path, with a generic
error when the path is a directory. -/
def FileSys.read (fs : FileSys) (p : List String) :
    Except IoError (List Nat) :=
  match lookupFile fs.files p with
  | some d => .ok d
  | none =>
    if memDirs fs.dirs p then .error ⟨ErrorKind.Other⟩
    else .error ⟨ErrorKind.NotFound⟩

/-- Model of `fs::write`: truncate-and-write.  Fails when the path is a
directory or when the parent directory does not exist. -/
def FileSys.write (fs : FileSys) (p : List String) (data : List Nat) :
    Except IoError Unit × FileSys :=
  if memDirs fs.dirs p then (.error ⟨ErrorKind.Other⟩, fs)
  else if fs.hasDir p.dropLast then
    (.ok (), { fs with files := setFile fs.files p data })
  else (.error ⟨ErrorKind.NotFound⟩, fs)

/-- Model of `fs::create_dir_all`: creates the directory and all its
ancestors; fails when a file occupies the path or one of its ancestors. -/
def FileSys.create_dir_all (fs : FileSys) (p : List String) :
    Except IoError Unit × FileSys :=
  if (initsOf p).any (fun q => fs.hasFile q) then (.error ⟨ErrorKind.Other⟩, fs)
  else (.ok (), { fs with dirs := addDirs fs.dirs (initsOf p) })

/-- Model of `fs::remove_file`: fails with `NotFound` when nothing exists
at the path, with a generic error when the path is a directory. -/
def FileSys.remove_file (fs : FileSys) (p : List String) :
    Except IoError Unit × FileSys :=
  if fs.hasFile p then (.ok (), { fs with files := eraseFile fs.files p })
  else if memDirs fs.dirs p then (.error ⟨ErrorKind.Other⟩, fs)
  else (.error ⟨ErrorKind.NotFound⟩, fs)

/-- Model of `HomeConfig::read_to_vec`: `File::open` then `read_to_end`. -/
def HomeConfig.read_to_vec (c : HomeConfig) (fs : FileSys) :
    Except IoError (List Nat) :=
  FileSys.read fs c.path.components

/-- Model of `HomeConfig::create_parent_dir`: when nothing is at the target
path yet, recursively create the parent directory (when there is one). -/
def HomeConfig.create_parent_dir (c : HomeConfig) (fs : FileSys) :
    Except IoError Unit × FileSys :=
  if fs.pathExists c.path.components then (.ok (), fs)
  else
    match c.path.parent with
    | some par => fs.create_dir_all par.components
    | none => (.ok (), fs)

/-- Model of `HomeConfig::save`: `create_parent_dir()?` then `fs::write`. -/
def HomeConfig.save (c : HomeConfig) (fs : FileSys) (data : List Nat) :
    Except IoError Unit × FileSys :=
  match c.create_parent_dir fs with
  | (.error e, fs1) => (.error e, fs1)
  | (.ok _, fs1) => fs1.write c.path.components data

/-- Model of `HomeConfig::delete`: `fs::remove_file`, mapping the `NotFound`
error to success and returning every other error unchanged. -/
def HomeConfig.delete (c : HomeConfig) (fs : FileSys) :
    Except IoError Unit × FileSys :=
  match fs.remove_file c.path.components with
  | (.ok _, fs1) => (.ok (), fs1)
  | (.error e, fs1) =>
    if e.kind = ErrorKind.NotFound then (.ok (), fs1) else (.error e, fs1)

/-- UTF-8 encoding of one scalar value (a valid `Char`). -/
def utf8EncodeChar (c : Char) : List Nat :=
  let n := c.toNat
  if n < 128 then [n]
  else if n < 2048 then [192 + n / 64, 128 + n % 64]
  else if n < 65536 then [224 + n / 4096, 128 + n / 64 % 64, 128 + n % 64]
  else [240 + n / 262144, 128 + n / 4096 % 64, 128 + n / 64 % 64, 128 + n % 64]

/-- UTF-8 encoding of a character list. -/
def utf8EncodeList : List Char → List Nat
  | [] => []
  | c :: cs => utf8EncodeChar c ++ utf8EncodeList cs

/-- The UTF-8 bytes of a string (the bytes Rust's `as_ref::<[u8]>()` and
`String::into_bytes` expose). -/
def bytesOfString (s : String) : List Nat :=
  utf8EncodeList s.data

/-- Strict UTF-8 decoding, byte by byte: `need` counts continuation
bytes still expected, `pending` accumulates the scalar value, and `minv`
is the minimal legal scalar for the current sequence (overlong check).
Rejects overlong forms, surrogates, out-of-range scalars, stray or
malformed continuation bytes, and truncated sequences. -/
def utf8Run : List Nat → Nat → Nat → Nat → Option (List Char)
  | [], need, _, _ => if need = 0 then some [] else none
  | b :: rest, need, pending, minv =>
    if need = 0 then
      if b < 128 then (utf8Run rest 0 0 0).map (Char.ofNat b :: ·)
      else if 192 ≤ b ∧ b < 224 then utf8Run rest 1 (b - 192) 128
      else if 224 ≤ b ∧ b < 240 then utf8Run rest 2 (b - 224) 2048
      else if 240 ≤ b ∧ b < 248 then utf8Run rest 3 (b - 240) 65536
      else none
    else
      if 128 ≤ b ∧ b < 192 then
        if need = 1 then
          if minv ≤ pending * 64 + (b - 128)
              ∧ ¬ (55296 ≤ pending * 64 + (b - 128)
                    ∧ pending * 64 + (b - 128) < 57344)
              ∧ pending * 64 + (b - 128) < 1114112 then
            (utf8Run rest 0 0 0).map
              (Char.ofNat (pending * 64 + (b - 128)) :: ·)
          else none
        else utf8Run rest (need - 1) (pending * 64 + (b - 128)) minv
      else none

/-- Decode UTF-8 bytes to a string, `none` on invalid UTF-8. -/
def stringOfBytes (b : List Nat) : Option String :=
  (utf8Run b 0 0 0).map String.mk

/-- Model of `HomeConfig::read_to_string` (`fs::read_to_string`): read the
whole file and validate it as UTF-8 (`InvalidData` otherwise). -/
def HomeConfig.read_to_string (c : HomeConfig) (fs : FileSys) :
    Except IoError String :=
  match FileSys.read fs c.path.components with
  | .error e => .error e
  | .ok bytes =>
    match stringOfBytes bytes with
    | some s => .ok s
    | none => .error ⟨ErrorKind.InvalidData⟩

/-- Model of `enum JsonError { Io(IoError), Serde(serde_json::Error) }`; the
external codec's error type is the parameter `ε`. -/
inductive JsonError (ε : Type) where
  | Io : IoError → JsonError ε
  | Serde : ε → JsonError ε
deriving DecidableEq, Repr

/-- Model of `enum YamlError { Io(IoError), Serde(serde_yaml::Error) }`. -/
inductive YamlError (ε : Type) where
  | Io : IoError → YamlError ε
  | Serde : ε → YamlError ε
deriving DecidableEq, Repr

/-- Model of `enum TomlParseError { Io(IoError), Serde(toml::de::Error) }`. -/
inductive TomlParseError (ε : Type) where
  | Io : IoError → TomlParseError ε
  | Serde : ε → TomlParseError ε
deriving DecidableEq, Repr

/-- Model of `enum TomlSaveError { Io(IoError), Serde(toml::ser::Error) }`. -/
inductive TomlSaveError (ε : Type) where
  | Io : IoError → TomlSaveError ε
  | Serde : ε → TomlSaveError ε
deriving DecidableEq, Repr

/-- Model of `HomeConfig::json`: `File::open` (failure mapped to `Io`), then
the external decoder (its failure mapped to `Serde`). -/
def HomeConfig.json {T ε : Type} (dec : List Nat → Except ε T)
    (c : HomeConfig) (fs : FileSys) : Except (JsonError ε) T :=
  match FileSys.read fs c.path.components with
  | .error e => .error (JsonError.Io e)
  | .ok bytes =>
    match dec bytes with
    | .error e => .error (JsonError.Serde e)
    | .ok v => .ok v

/-- Model of `HomeConfig::yaml`: same shape as `HomeConfig::json`. -/
def HomeConfig.yaml {T ε : Type} (dec : List Nat → Except ε T)
    (c : HomeConfig) (fs : FileSys) : Except (YamlError ε) T :=
  match FileSys.read fs c.path.components with
  | .error e => .error (YamlError.Io e)
  | .ok bytes =>
    match dec bytes with
    | .error e => .error (YamlError.Serde e)
    | .ok v => .ok v

/-- Model of `HomeConfig::toml`: `read_to_vec` (failure mapped to `Io`), then
external decoder (failure mapped to `Serde`). -/
def HomeConfig.toml {T ε : Type} (dec : List Nat → Except ε T)
    (c : HomeConfig) (fs : FileSys) : Except (TomlParseError ε) T :=
  match c.read_to_vec fs with
  | .error e => .error (TomlParseError.Io e)
  | .ok bytes =>
    match dec bytes with
    | .error e => .error (TomlParseError.Serde e)
    | .ok v => .ok v

/-- Model of `HomeConfig::save_json`: encode first (failure to `Serde`),
then `create_parent_dir` and `fs::write` (failures mapped to `Io`). -/
def HomeConfig.save_json {T ε : Type} (enc : T → Except ε (List Nat))
    (c : HomeConfig) (fs : FileSys) (data : T) :
    Except (JsonError ε) Unit × FileSys :=
  match enc data with
  | .error e => (.error (JsonError.Serde e), fs)
  | .ok bytes =>
    match c.create_parent_dir fs with
    | (.error e, fs1) => (.error (JsonError.Io e), fs1)
    | (.ok _, fs1) =>
      match fs1.write c.path.components bytes with
      | (.error e, fs2) => (.error (JsonError.Io e), fs2)
      | (.ok _, fs2) => (.ok (), fs2)

/-- Model of `HomeConfig::save_yaml`: same shape as `save_json`. -/
def HomeConfig.save_yaml {T ε : Type} (enc : T → Except ε (List Nat))
    (c : HomeConfig) (fs : FileSys) (data : T) :
    Except (YamlError ε) Unit × FileSys :=
  match enc data with
  | .error e => (.error (YamlError.Serde e), fs)
  | .ok bytes =>
    match c.create_parent_dir fs with
    | (.error e, fs1) => (.error (YamlError.Io e), fs1)
    | (.ok _, fs1) =>
      match fs1.write c.path.components bytes with
      | (.error e, fs2) => (.error (YamlError.Io e), fs2)
      | (.ok _, fs2) => (.ok (), fs2)

/-- Model of `HomeConfig::save_toml`: same shape as `save_json`. -/
def HomeConfig.save_toml {T ε : Type} (enc : T → Except ε (List Nat))
    (c : HomeConfig) (fs : FileSys) (data : T) :
    Except (TomlSaveError ε) Unit × FileSys :=
  match enc data with
  | .error e => (.error (TomlSaveError.Serde e), fs)
  | .ok bytes =>
    match c.create_parent_dir fs with
    | (.error e, fs1) => (.error (TomlSaveError.Io e), fs1)
    | (.ok _, fs1) =>
      match fs1.write c.path.components bytes with
      | (.error e, fs2) => (.error (TomlSaveError.Io e), fs2)
      | (.ok _, fs2) => (.ok (), fs2)

/-- C1: in namespaced mode the stored path is exactly
`home/.config/<app_name>/<file_name>`, in direct mode exactly
`home/<relative_path>`, and both are absolute when the resolved home
directory is absolute. -/
theorem construction_paths (h : FsPath) (app : String) (file rel : FsPath)
    (habs : h.absolute = true) (hfile : file.absolute = false)
    (hrel : rel.absolute = false) :
    HomeConfig.with_config_dir (some h) app file
      = some ⟨⟨true, h.components ++ [".config", app] ++ file.components⟩⟩
    ∧ HomeConfig.with_file (some h) rel
      = some ⟨⟨true, h.components ++ rel.components⟩⟩ := by
  constructor
  · simp [HomeConfig.with_config_dir, home_dir, FsPath.join, hfile, habs]
  · simp [HomeConfig.with_file, home_dir, FsPath.join, hrel, habs]

/-- Witness for `construction_paths` at a concrete home and file names. -/
theorem construction_paths_witness :
    HomeConfig.with_config_dir (some ⟨true, ["home", "user"]⟩) "app"
        ⟨false, ["config"]⟩
      = some ⟨⟨true, ["home", "user", ".config", "app", "config"]⟩⟩
    ∧ HomeConfig.with_file (some ⟨true, ["home", "user"]⟩)
        ⟨false, ["test.json"]⟩
      = some ⟨⟨true, ["home", "user", "test.json"]⟩⟩ :=
  construction_paths ⟨true, ["home", "user"]⟩ "app" ⟨false, ["config"]⟩
    ⟨false, ["test.json"]⟩ rfl rfl rfl

/-- C5: construction fails (the modelled panic) when home resolution
fails, and returns normally only when the resolver succeeded. -/
theorem construction_requires_home (r : Option FsPath) (app : String)
    (file p : FsPath) :
    ((HomeConfig.with_config_dir r app file).isSome = true
      → r.isSome = true)
    ∧ ((HomeConfig.with_file r p).isSome = true → r.isSome = true)
    ∧ HomeConfig.with_config_dir none app file = none
    ∧ HomeConfig.with_file none p = none := by
  refine ⟨?_, ?_, rfl, rfl⟩ <;>
    cases r <;> simp [HomeConfig.with_config_dir, HomeConfig.with_file,
      home_dir]

/-- Witness for `construction_requires_home`: at a concrete successful
resolver, construction returns a handle and the implication applies. -/
theorem construction_requires_home_witness :
    (HomeConfig.with_config_dir (some ⟨true, ["home", "user"]⟩) "app"
        ⟨false, ["config"]⟩).isSome = true
    ∧ (some (⟨true, ["home", "user"]⟩ : FsPath)).isSome = true :=
  ⟨by decide,
    (construction_requires_home (some ⟨true, ["home", "user"]⟩) "app"
      ⟨false, ["config"]⟩ ⟨false, ["config"]⟩).1 (by decide)⟩

theorem lookupFile_setFile_self (l : List (List String × List Nat))
    (p : List String) (d : List Nat) :
    lookupFile (setFile l p d) p = some d := by
  induction l with
  | nil => simp [setFile, lookupFile]
  | cons e rest ih =>
    by_cases h : e.1 = p
    · simp [setFile, h, lookupFile]
    · simp [setFile, h, lookupFile, ih]

theorem lookupFile_eraseFile_self (l : List (List String × List Nat))
    (p : List String) :
    lookupFile (eraseFile l p) p = none := by
  induction l with
  | nil => simp [eraseFile, lookupFile]
  | cons e rest ih =>
    by_cases h : e.1 = p
    · simp [eraseFile, h, ih]
    · simp [eraseFile, h, lookupFile, ih]

theorem memDirs_append (ds l : List (List String)) (q : List String) :
    memDirs (ds ++ l) q = (memDirs ds q || memDirs l q) := by
  induction ds with
  | nil => simp [memDirs]
  | cons d rest ih =>
    by_cases h : d = q
    · simp [memDirs, h]
    · simp [memDirs, h, ih]

theorem memDirs_addDirs_mono (qs : List (List String))
    (ds : List (List String)) (q : List String)
    (h : memDirs ds q = true) :
    memDirs (addDirs ds qs) q = true := by
  induction qs generalizing ds with
  | nil => simpa [addDirs] using h
  | cons x rest ih =>
    simp only [addDirs]
    apply ih
    by_cases hx : memDirs ds x
    · simpa [hx] using h
    · simp [hx, memDirs_append, h]

theorem memDirs_addDirs_of_mem (qs : List (List String))
    (ds : List (List String)) (q : List String) (h : q ∈ qs) :
    memDirs (addDirs ds qs) q = true := by
  induction qs generalizing ds with
  | nil => cases h
  | cons x rest ih =>
    rcases List.mem_cons.mp h with hq | hq
    · subst hq
      simp only [addDirs]
      apply memDirs_addDirs_mono
      by_cases hx : memDirs ds q
      · simp [hx]
      · simp [hx, memDirs_append, memDirs]
    · simp only [addDirs]
      exact ih _ hq

theorem write_ok {fs fs1 : FileSys} {p : List String} {d : List Nat}
    {u : Unit} (h : fs.write p d = (.ok u, fs1)) :
    memDirs fs.dirs p = false ∧ fs.hasDir p.dropLast = true
      ∧ fs1 = { fs with files := setFile fs.files p d } := by
  unfold FileSys.write at h
  split_ifs at h with h1 h2
  · simp at h
  · refine ⟨by simpa using h1, h2, ?_⟩
    simpa [Prod.ext_iff, eq_comm] using h
  · simp at h

theorem write_ok_of {fs : FileSys} {p : List String} {d : List Nat}
    (h1 : memDirs fs.dirs p = false) (h2 : fs.hasDir p.dropLast = true) :
    fs.write p d = (.ok (), { fs with files := setFile fs.files p d }) := by
  unfold FileSys.write
  rw [if_neg (by simp [h1]), if_pos h2]

theorem create_parent_dir_files (c : HomeConfig) (fs : FileSys) :
    ((c.create_parent_dir fs).2).files = fs.files := by
  unfold HomeConfig.create_parent_dir
  split
  · rfl
  · split
    · unfold FileSys.create_dir_all
      split <;> rfl
    · rfl

theorem create_parent_dir_of_exists {c : HomeConfig} {fs : FileSys}
    (h : fs.pathExists c.path.components = true) :
    c.create_parent_dir fs = (.ok (), fs) := by
  unfold HomeConfig.create_parent_dir
  rw [if_pos h]

theorem save_ok {c : HomeConfig} {fs fs1 : FileSys} {d : List Nat}
    {u : Unit} (h : c.save fs d = (.ok u, fs1)) :
    lookupFile fs1.files c.path.components = some d
    ∧ memDirs fs1.dirs c.path.components = false
    ∧ fs1.hasDir c.path.components.dropLast = true := by
  unfold HomeConfig.save at h
  rcases hc : c.create_parent_dir fs with ⟨r, fsmid⟩
  rw [hc] at h
  cases r with
  | error e => simp at h
  | ok u2 =>
    obtain ⟨h1, h2, h3⟩ := write_ok h
    subst h3
    exact ⟨lookupFile_setFile_self _ _ _, h1, h2⟩

theorem read_of_lookup {fs : FileSys} {p : List String} {d : List Nat}
    (h : lookupFile fs.files p = some d) :
    FileSys.read fs p = .ok d := by
  unfold FileSys.read
  rw [h]


theorem utf8Run_one (b : Nat) (l : List Nat) (h : b < 128) :
    utf8Run (b :: l) 0 0 0 =
      (utf8Run l 0 0 0).map (Char.ofNat b :: ·) := by
  simp [utf8Run, h]

theorem utf8Run_two (b b1 : Nat) (l : List Nat)
    (h1a : 192 ≤ b) (h1b : b < 224) (h2a : 128 ≤ b1) (h2b : b1 < 192)
    (hov : 128 ≤ (b - 192) * 64 + (b1 - 128)) :
    utf8Run (b :: b1 :: l) 0 0 0 =
      (utf8Run l 0 0 0).map
        (Char.ofNat ((b - 192) * 64 + (b1 - 128)) :: ·) := by
  have h0 : ¬ b < 128 := by omega
  have hsur : ¬ (55296 ≤ (b - 192) * 64 + (b1 - 128)
      ∧ (b - 192) * 64 + (b1 - 128) < 57344) := by omega
  have hlt : (b - 192) * 64 + (b1 - 128) < 1114112 := by omega
  simp [utf8Run, h0, h1a, h1b, h2a, h2b, hov, hsur, hlt]

theorem utf8Run_three (b b1 b2 : Nat) (l : List Nat)
    (h1a : 224 ≤ b) (h1b : b < 240) (h2a : 128 ≤ b1) (h2b : b1 < 192)
    (h3a : 128 ≤ b2) (h3b : b2 < 192)
    (hov : 2048 ≤ ((b - 224) * 64 + (b1 - 128)) * 64 + (b2 - 128))
    (hsur : ¬ (55296 ≤ ((b - 224) * 64 + (b1 - 128)) * 64 + (b2 - 128)
      ∧ ((b - 224) * 64 + (b1 - 128)) * 64 + (b2 - 128) < 57344)) :
    utf8Run (b :: b1 :: b2 :: l) 0 0 0 =
      (utf8Run l 0 0 0).map
        (Char.ofNat (((b - 224) * 64 + (b1 - 128)) * 64 + (b2 - 128)) :: ·) := by
  have h0 : ¬ b < 128 := by omega
  have h0b : ¬ (192 ≤ b ∧ b < 224) := by omega
  have hlt : ((b - 224) * 64 + (b1 - 128)) * 64 + (b2 - 128) < 1114112 := by
    omega
  simp [utf8Run, h0, h0b, h1a, h1b, h2a, h2b, h3a, h3b, hov, hsur, hlt]

theorem utf8Run_four (b b1 b2 b3 : Nat) (l : List Nat)
    (h1a : 240 ≤ b) (h1b : b < 248) (h2a : 128 ≤ b1) (h2b : b1 < 192)
    (h3a : 128 ≤ b2) (h3b : b2 < 192) (h4a : 128 ≤ b3) (h4b : b3 < 192)
    (hov : 65536 ≤ (((b - 240) * 64 + (b1 - 128)) * 64 + (b2 - 128)) * 64
      + (b3 - 128))
    (hlt : (((b - 240) * 64 + (b1 - 128)) * 64 + (b2 - 128)) * 64
      + (b3 - 128) < 1114112) :
    utf8Run (b :: b1 :: b2 :: b3 :: l) 0 0 0 =
      (utf8Run l 0 0 0).map
        (Char.ofNat ((((b - 240) * 64 + (b1 - 128)) * 64 + (b2 - 128)) * 64
          + (b3 - 128)) :: ·) := by
  have h0 : ¬ b < 128 := by omega
  have h0b : ¬ (192 ≤ b ∧ b < 224) := by omega
  have h0c : ¬ (224 ≤ b ∧ b < 240) := by omega
  have hsur : ¬ (55296 ≤ (((b - 240) * 64 + (b1 - 128)) * 64 + (b2 - 128))
      * 64 + (b3 - 128)
      ∧ (((b - 240) * 64 + (b1 - 128)) * 64 + (b2 - 128)) * 64
        + (b3 - 128) < 57344) := by omega
  simp [utf8Run, h0, h0b, h0c, h1a, h1b, h2a, h2b, h3a, h3b, h4a, h4b,
    hov, hsur, hlt]

theorem utf8Run_encodeChar (c : Char) (l : List Nat) :
    utf8Run (utf8EncodeChar c ++ l) 0 0 0 =
      (utf8Run l 0 0 0).map (c :: ·) := by
  have hv : c.toNat < 55296 ∨ (57343 < c.toNat ∧ c.toNat < 1114112) :=
    c.valid
  by_cases h1 : c.toNat < 128
  · have he : utf8EncodeChar c = [c.toNat] := by
      simp [utf8EncodeChar, h1]
    rw [he, List.cons_append, List.nil_append, utf8Run_one _ _ h1,
      Char.ofNat_toNat]
  · by_cases h2 : c.toNat < 2048
    · have he : utf8EncodeChar c =
          [192 + c.toNat / 64, 128 + c.toNat % 64] := by
        simp [utf8EncodeChar, h1, h2]
      have harith : (192 + c.toNat / 64 - 192) * 64 +
          (128 + c.toNat % 64 - 128) = c.toNat := by omega
      rw [he, List.cons_append, List.cons_append, List.nil_append,
        utf8Run_two _ _ _ (by omega) (by omega) (by omega) (by omega)
          (by omega), harith, Char.ofNat_toNat]
    · by_cases h3 : c.toNat < 65536
      · have he : utf8EncodeChar c =
            [224 + c.toNat / 4096, 128 + c.toNat / 64 % 64,
              128 + c.toNat % 64] := by
          simp [utf8EncodeChar, h1, h2, h3]
        have harith : ((224 + c.toNat / 4096 - 224) * 64 +
            (128 + c.toNat / 64 % 64 - 128)) * 64 +
            (128 + c.toNat % 64 - 128) = c.toNat := by omega
        rw [he, List.cons_append, List.cons_append, List.cons_append,
          List.nil_append,
          utf8Run_three _ _ _ _ (by omega) (by omega) (by omega) (by omega)
            (by omega) (by omega) (by omega) (by omega),
          harith, Char.ofNat_toNat]
      · have he : utf8EncodeChar c =
            [240 + c.toNat / 262144, 128 + c.toNat / 4096 % 64,
              128 + c.toNat / 64 % 64, 128 + c.toNat % 64] := by
          simp [utf8EncodeChar, h1, h2, h3]
        have harith : (((240 + c.toNat / 262144 - 240) * 64 +
            (128 + c.toNat / 4096 % 64 - 128)) * 64 +
            (128 + c.toNat / 64 % 64 - 128)) * 64 +
            (128 + c.toNat % 64 - 128) = c.toNat := by omega
        rw [he, List.cons_append, List.cons_append, List.cons_append,
          List.cons_append, List.nil_append,
          utf8Run_four _ _ _ _ _ (by omega) (by omega) (by omega) (by omega)
            (by omega) (by omega) (by omega) (by omega) (by omega)
            (by omega),
          harith, Char.ofNat_toNat]

theorem utf8Run_encodeList (cs : List Char) :
    utf8Run (utf8EncodeList cs) 0 0 0 = some cs := by
  induction cs with
  | nil => simp [utf8EncodeList, utf8Run]
  | cons c rest ih =>
    simp [utf8EncodeList, utf8Run_encodeChar, ih]

theorem stringOfBytes_bytesOfString (s : String) :
    stringOfBytes (bytesOfString s) = some s := by
  simp [stringOfBytes, bytesOfString, utf8Run_encodeList]

/-- C2: delete is idempotent: when nothing exists at the path the
not-found error is swallowed and the state unchanged; when the file
exists it is removed and the call succeeds; any other error from
`remove_file` is returned to the caller unchanged. -/
theorem delete_idempotent (c : HomeConfig) (fs : FileSys) :
    (fs.pathExists c.path.components = false →
      c.delete fs = (.ok (), fs))
    ∧ (fs.hasFile c.path.components = true →
        c.delete fs = (.ok (), { fs with
          files := eraseFile fs.files c.path.components })
        ∧ FileSys.hasFile { fs with
            files := eraseFile fs.files c.path.components }
            c.path.components = false)
    ∧ (∀ e fsE, fs.remove_file c.path.components = (.error e, fsE) →
        e.kind ≠ ErrorKind.NotFound → c.delete fs = (.error e, fsE)) := by
  refine ⟨?_, ?_, ?_⟩
  · intro h
    have hf : fs.hasFile c.path.components = false := by
      revert h
      unfold FileSys.pathExists
      cases fs.hasFile c.path.components <;> simp
    have hd : memDirs fs.dirs c.path.components = false := by
      revert h
      unfold FileSys.pathExists FileSys.hasDir
      cases memDirs fs.dirs c.path.components <;> simp
    unfold HomeConfig.delete FileSys.remove_file
    rw [if_neg (by simp [hf]), if_neg (by simp [hd])]
    simp
  · intro h
    constructor
    · unfold HomeConfig.delete FileSys.remove_file
      rw [if_pos h]
    · unfold FileSys.hasFile
      simp [lookupFile_eraseFile_self]
  · intro e fsE hrm hne
    unfold HomeConfig.delete
    rw [hrm]
    simp [hne]

/-- Witness for `delete_idempotent`: deleting on the empty filesystem
(nothing at the path) succeeds and leaves the state unchanged. -/
theorem delete_idempotent_witness :
    HomeConfig.delete ⟨⟨true, ["home", "user", "f"]⟩⟩ ⟨[], []⟩
      = (.ok (), ⟨[], []⟩) :=
  (delete_idempotent ⟨⟨true, ["home", "user", "f"]⟩⟩ ⟨[], []⟩).1 (by decide)

/-- C8: reading a handle whose file does not exist yields the I/O error
whose kind is `NotFound`, for both `read_to_vec` and `read_to_string`,
and that kind is distinct from every other error kind. -/
theorem read_missing_not_found (c : HomeConfig) (fs : FileSys)
    (h : fs.pathExists c.path.components = false) :
    c.read_to_vec fs = .error ⟨ErrorKind.NotFound⟩
    ∧ c.read_to_string fs = .error ⟨ErrorKind.NotFound⟩
    ∧ (∀ k, k ≠ ErrorKind.NotFound →
        (⟨k⟩ : IoError) ≠ ⟨ErrorKind.NotFound⟩) := by
  have hf : lookupFile fs.files c.path.components = none := by
    revert h
    unfold FileSys.pathExists FileSys.hasFile
    cases hl : lookupFile fs.files c.path.components <;> simp
  have hd : memDirs fs.dirs c.path.components = false := by
    revert h
    unfold FileSys.pathExists FileSys.hasDir
    cases memDirs fs.dirs c.path.components <;> simp
  have hr : FileSys.read fs c.path.components
      = .error ⟨ErrorKind.NotFound⟩ := by
    unfold FileSys.read
    rw [hf, if_neg (by simp [hd])]
  refine ⟨hr, ?_, ?_⟩
  · unfold HomeConfig.read_to_string
    rw [hr]
  · intro k hk
    simp [hk]

/-- Witness for `read_missing_not_found` on the empty filesystem. -/
theorem read_missing_not_found_witness :
    HomeConfig.read_to_vec ⟨⟨true, ["home", "user", "f"]⟩⟩ ⟨[], []⟩
      = .error ⟨ErrorKind.NotFound⟩ :=
  (read_missing_not_found ⟨⟨true, ["home", "user", "f"]⟩⟩ ⟨[], []⟩
    (by decide)).1

/-- C9: save is idempotent on content: after a successful save, saving
the same bytes again succeeds, and the file's final content equals the
content after the single save (both reads return exactly the bytes). -/
theorem save_idempotent (c : HomeConfig) (fs fs1 : FileSys) (d : List Nat)
    (h : c.save fs d = (.ok (), fs1)) :
    ∃ fs2, c.save fs1 d = (.ok (), fs2)
      ∧ FileSys.read fs2 c.path.components = .ok d
      ∧ FileSys.read fs1 c.path.components = .ok d := by
  obtain ⟨hl, hm, hd⟩ := save_ok h
  have hex : fs1.pathExists c.path.components = true := by
    unfold FileSys.pathExists FileSys.hasFile
    rw [hl]
    simp
  refine ⟨{ fs1 with files := setFile fs1.files c.path.components d },
    ?_, ?_, read_of_lookup hl⟩
  · unfold HomeConfig.save
    rw [create_parent_dir_of_exists hex]
    exact write_ok_of hm hd
  · exact read_of_lookup (lookupFile_setFile_self _ _ _)

/-- Witness for `save_idempotent` at a concrete save on the empty
filesystem. -/
theorem save_idempotent_witness :
    ∃ fs2,
      HomeConfig.save ⟨⟨true, ["home", "user", ".config", "test", "file"]⟩⟩
        ⟨[(["home", "user", ".config", "test", "file"], [48])],
          [[], ["home"], ["home", "user"], ["home", "user", ".config"],
            ["home", "user", ".config", "test"]]⟩ [48] = (.ok (), fs2)
      ∧ FileSys.read fs2 ["home", "user", ".config", "test", "file"]
          = .ok [48]
      ∧ FileSys.read
          ⟨[(["home", "user", ".config", "test", "file"], [48])],
            [[], ["home"], ["home", "user"], ["home", "user", ".config"],
              ["home", "user", ".config", "test"]]⟩
          ["home", "user", ".config", "test", "file"] = .ok [48] :=
  save_idempotent ⟨⟨true, ["home", "user", ".config", "test", "file"]⟩⟩
    ⟨[], []⟩ _ [48] (by decide)

/-- C7: raw save/read round-trip: after a successful save of the UTF-8
bytes of a string, `read_to_string` succeeds and returns exactly that
string. -/
theorem save_then_read_to_string (c : HomeConfig) (fs fs1 : FileSys)
    (s : String) (h : c.save fs (bytesOfString s) = (.ok (), fs1)) :
    c.read_to_string fs1 = .ok s := by
  obtain ⟨hl, -, -⟩ := save_ok h
  unfold HomeConfig.read_to_string
  rw [read_of_lookup hl]
  simp [stringOfBytes_bytesOfString]

/-- Witness for `save_then_read_to_string`: the spec's concrete
scenario, application `test`, file `file`, content `123`. -/
theorem save_then_read_to_string_witness :
    HomeConfig.save ⟨⟨true, ["home", "user", ".config", "test", "file"]⟩⟩
        ⟨[], []⟩ (bytesOfString "123")
      = (.ok (), ⟨[(["home", "user", ".config", "test", "file"],
          [49, 50, 51])],
          [[], ["home"], ["home", "user"], ["home", "user", ".config"],
            ["home", "user", ".config", "test"]]⟩)
    ∧ HomeConfig.read_to_string
        ⟨⟨true, ["home", "user", ".config", "test", "file"]⟩⟩
        ⟨[(["home", "user", ".config", "test", "file"], [49, 50, 51])],
          [[], ["home"], ["home", "user"], ["home", "user", ".config"],
            ["home", "user", ".config", "test"]]⟩ = .ok "123" :=
  ⟨by decide,
    save_then_read_to_string
      ⟨⟨true, ["home", "user", ".config", "test", "file"]⟩⟩ ⟨[], []⟩ _ "123"
      (by decide)⟩

theorem create_parent_dir_dirs {c : HomeConfig} {fs fsmid : FileSys}
    {u : Unit} (hne : fs.pathExists c.path.components = false)
    (hc : c.create_parent_dir fs = (.ok u, fsmid)) :
    ∀ q ∈ initsOf c.path.components.dropLast,
      q = [] ∨ memDirs fsmid.dirs q = true := by
  rcases hcomp : c.path.components with _ | ⟨a, as⟩
  · exfalso
    rw [hcomp] at hne
    simp [FileSys.pathExists, FileSys.hasDir, List.isEmpty] at hne
  · unfold HomeConfig.create_parent_dir at hc
    rw [if_neg (by simp [hne])] at hc
    unfold FsPath.parent at hc
    rw [hcomp] at hc
    simp only [] at hc
    unfold FileSys.create_dir_all at hc
    split_ifs at hc with hany
    · simp at hc
    · have hdirs : fsmid.dirs = addDirs fs.dirs (initsOf (a :: as).dropLast)
          := by
        have := congrArg Prod.snd hc
        simp at this
        rw [← this]
      intro q hq
      right
      rw [hdirs]
      apply memDirs_addDirs_of_mem
      exact hq

/-- C3: save first ensures the parent chain (creating it recursively
when the target does not yet exist) and then truncate-writes, so after a
successful save the file's content is exactly the bytes passed in; a
directory-creation failure is returned as the I/O error of the call. -/
theorem save_creates_and_writes (c : HomeConfig) (fs fs1 : FileSys)
    (d : List Nat) :
    (c.save fs d = (.ok (), fs1) →
      FileSys.read fs1 c.path.components = .ok d
      ∧ (fs.pathExists c.path.components = false →
          ∀ q ∈ initsOf c.path.components.dropLast,
            q = [] ∨ memDirs fs1.dirs q = true))
    ∧ (∀ e fsE, c.create_parent_dir fs = (.error e, fsE) →
        c.save fs d = (.error e, fsE)) := by
  constructor
  · intro h
    obtain ⟨hl, -, -⟩ := save_ok h
    refine ⟨read_of_lookup hl, ?_⟩
    intro hne
    unfold HomeConfig.save at h
    rcases hc : c.create_parent_dir fs with ⟨r, fsmid⟩
    rw [hc] at h
    cases r with
    | error e => simp at h
    | ok u2 =>
      obtain ⟨-, -, hfs1⟩ := write_ok h
      have hdirs : fs1.dirs = fsmid.dirs := by rw [hfs1]
      intro q hq
      rcases create_parent_dir_dirs hne hc q hq with hq0 | hq1
      · exact Or.inl hq0
      · exact Or.inr (by rw [hdirs]; exact hq1)
  · intro e fsE hc
    unfold HomeConfig.save
    rw [hc]

/-- Witness for `save_creates_and_writes`: a save on the empty
filesystem creates the whole `.config/test` chain and writes the file. -/
theorem save_creates_and_writes_witness :
    FileSys.read
        ⟨[(["home", "user", ".config", "test", "file"], [48])],
          [[], ["home"], ["home", "user"], ["home", "user", ".config"],
            ["home", "user", ".config", "test"]]⟩
        ["home", "user", ".config", "test", "file"] = .ok [48]
    ∧ (FileSys.pathExists ⟨[], []⟩
          ["home", "user", ".config", "test", "file"] = false →
        ∀ q ∈ initsOf
            (List.dropLast ["home", "user", ".config", "test", "file"]),
          q = [] ∨ memDirs
            [[], ["home"], ["home", "user"], ["home", "user", ".config"],
              ["home", "user", ".config", "test"]] q = true) :=
  (save_creates_and_writes
      ⟨⟨true, ["home", "user", ".config", "test", "file"]⟩⟩ ⟨[], []⟩
      ⟨[(["home", "user", ".config", "test", "file"], [48])],
        [[], ["home"], ["home", "user"], ["home", "user", ".config"],
          ["home", "user", ".config", "test"]]⟩ [48]).1 (by decide)

theorem read_not_found_of {fs : FileSys} {p : List String}
    (h : fs.pathExists p = false) :
    FileSys.read fs p = .error ⟨ErrorKind.NotFound⟩ := by
  have hf : lookupFile fs.files p = none := by
    revert h
    unfold FileSys.pathExists FileSys.hasFile
    cases lookupFile fs.files p <;> simp
  have hd : memDirs fs.dirs p = false := by
    revert h
    unfold FileSys.pathExists FileSys.hasDir
    cases memDirs fs.dirs p <;> simp
  unfold FileSys.read
  rw [hf, if_neg (by simp [hd])]

theorem save_json_ok {T e : Type} {enc : T → Except e (List Nat)}
    {c : HomeConfig} {fs fs1 : FileSys} {v : T} {bs : List Nat} {u : Unit}
    (henc : enc v = .ok bs) (h : c.save_json enc fs v = (.ok u, fs1)) :
    c.save fs bs = (.ok (), fs1) := by
  unfold HomeConfig.save_json at h
  rw [henc] at h
  rcases hc : c.create_parent_dir fs with ⟨r, fsmid⟩
  rw [hc] at h
  cases r with
  | error er => simp at h
  | ok u2 =>
    simp at h
    rcases hw : fsmid.write c.path.components bs with ⟨r2, fs2⟩
    rw [hw] at h
    cases r2 with
    | error er => simp at h
    | ok u3 =>
      simp at h
      simp [HomeConfig.save, hc, hw, h]

theorem save_yaml_ok {T e : Type} {enc : T → Except e (List Nat)}
    {c : HomeConfig} {fs fs1 : FileSys} {v : T} {bs : List Nat} {u : Unit}
    (henc : enc v = .ok bs) (h : c.save_yaml enc fs v = (.ok u, fs1)) :
    c.save fs bs = (.ok (), fs1) := by
  unfold HomeConfig.save_yaml at h
  rw [henc] at h
  rcases hc : c.create_parent_dir fs with ⟨r, fsmid⟩
  rw [hc] at h
  cases r with
  | error er => simp at h
  | ok u2 =>
    simp at h
    rcases hw : fsmid.write c.path.components bs with ⟨r2, fs2⟩
    rw [hw] at h
    cases r2 with
    | error er => simp at h
    | ok u3 =>
      simp at h
      simp [HomeConfig.save, hc, hw, h]

theorem save_toml_ok {T e : Type} {enc : T → Except e (List Nat)}
    {c : HomeConfig} {fs fs1 : FileSys} {v : T} {bs : List Nat} {u : Unit}
    (henc : enc v = .ok bs) (h : c.save_toml enc fs v = (.ok u, fs1)) :
    c.save fs bs = (.ok (), fs1) := by
  unfold HomeConfig.save_toml at h
  rw [henc] at h
  rcases hc : c.create_parent_dir fs with ⟨r, fsmid⟩
  rw [hc] at h
  cases r with
  | error er => simp at h
  | ok u2 =>
    simp at h
    rcases hw : fsmid.write c.path.components bs with ⟨r2, fs2⟩
    rw [hw] at h
    cases r2 with
    | error er => simp at h
    | ok u3 =>
      simp at h
      simp [HomeConfig.save, hc, hw, h]

theorem save_json_err {T e : Type} {enc : T → Except e (List Nat)}
    {c : HomeConfig} {fs fsE : FileSys} {v : T} {bs : List Nat}
    {eio : IoError} (henc : enc v = .ok bs)
    (hs : c.save fs bs = (.error eio, fsE)) :
    c.save_json enc fs v = (.error (JsonError.Io eio), fsE) := by
  unfold HomeConfig.save at hs
  rcases hc : c.create_parent_dir fs with ⟨r, fsmid⟩
  rw [hc] at hs
  cases r with
  | error er =>
    simp at hs
    simp [HomeConfig.save_json, henc, hc, hs.1, hs.2]
  | ok u2 =>
    simp at hs
    simp [HomeConfig.save_json, henc, hc, hs]

theorem save_yaml_err {T e : Type} {enc : T → Except e (List Nat)}
    {c : HomeConfig} {fs fsE : FileSys} {v : T} {bs : List Nat}
    {eio : IoError} (henc : enc v = .ok bs)
    (hs : c.save fs bs = (.error eio, fsE)) :
    c.save_yaml enc fs v = (.error (YamlError.Io eio), fsE) := by
  unfold HomeConfig.save at hs
  rcases hc : c.create_parent_dir fs with ⟨r, fsmid⟩
  rw [hc] at hs
  cases r with
  | error er =>
    simp at hs
    simp [HomeConfig.save_yaml, henc, hc, hs.1, hs.2]
  | ok u2 =>
    simp at hs
    simp [HomeConfig.save_yaml, henc, hc, hs]

theorem save_toml_err {T e : Type} {enc : T → Except e (List Nat)}
    {c : HomeConfig} {fs fsE : FileSys} {v : T} {bs : List Nat}
    {eio : IoError} (henc : enc v = .ok bs)
    (hs : c.save fs bs = (.error eio, fsE)) :
    c.save_toml enc fs v = (.error (TomlSaveError.Io eio), fsE) := by
  unfold HomeConfig.save at hs
  rcases hc : c.create_parent_dir fs with ⟨r, fsmid⟩
  rw [hc] at hs
  cases r with
  | error er =>
    simp at hs
    simp [HomeConfig.save_toml, henc, hc, hs.1, hs.2]
  | ok u2 =>
    simp at hs
    simp [HomeConfig.save_toml, henc, hc, hs]

/-- C6: codec round-trip: when the external codec's decode inverts its
encode on the saved value, a successful structured save followed by the
matching parse returns exactly the original value, for each of the
three formats. -/
theorem serde_roundtrip {T E : Type} (enc : T → Except E (List Nat))
    (dec : List Nat → Except E T) (c : HomeConfig) (v : T) (bs : List Nat)
    (henc : enc v = .ok bs) (hdec : dec bs = .ok v) :
    (∀ fs fs1, c.save_json enc fs v = (.ok (), fs1) →
      c.json dec fs1 = .ok v)
    ∧ (∀ fs fs1, c.save_yaml enc fs v = (.ok (), fs1) →
        c.yaml dec fs1 = .ok v)
    ∧ (∀ fs fs1, c.save_toml enc fs v = (.ok (), fs1) →
        c.toml dec fs1 = .ok v) := by
  refine ⟨?_, ?_, ?_⟩
  · intro fs fs1 h
    obtain ⟨hl, -, -⟩ := save_ok (save_json_ok henc h)
    simp [HomeConfig.json, read_of_lookup hl, hdec]
  · intro fs fs1 h
    obtain ⟨hl, -, -⟩ := save_ok (save_yaml_ok henc h)
    simp [HomeConfig.yaml, read_of_lookup hl, hdec]
  · intro fs fs1 h
    obtain ⟨hl, -, -⟩ := save_ok (save_toml_ok henc h)
    simp [HomeConfig.toml, HomeConfig.read_to_vec, read_of_lookup hl, hdec]

/-- Witness for `serde_roundtrip` with the identity codec on bytes:
the spec's scenario shape (application `test`, file `config.json`). -/
theorem serde_roundtrip_witness :
    HomeConfig.save_json (fun x => (.ok x : Except Unit (List Nat)))
        ⟨⟨true, ["home", "user", ".config", "test", "config.json"]⟩⟩
        ⟨[], []⟩ [48]
      = (.ok (), ⟨[(["home", "user", ".config", "test", "config.json"],
          [48])],
          [[], ["home"], ["home", "user"], ["home", "user", ".config"],
            ["home", "user", ".config", "test"]]⟩)
    ∧ HomeConfig.json (fun b => (.ok b : Except Unit (List Nat)))
        ⟨⟨true, ["home", "user", ".config", "test", "config.json"]⟩⟩
        ⟨[(["home", "user", ".config", "test", "config.json"], [48])],
          [[], ["home"], ["home", "user"], ["home", "user", ".config"],
            ["home", "user", ".config", "test"]]⟩ = .ok [48] :=
  ⟨by decide,
    (serde_roundtrip (fun x => (.ok x : Except Unit (List Nat)))
        (fun b => (.ok b : Except Unit (List Nat)))
        ⟨⟨true, ["home", "user", ".config", "test", "config.json"]⟩⟩
        [48] [48] rfl rfl).1 ⟨[], []⟩
      ⟨[(["home", "user", ".config", "test", "config.json"], [48])],
        [[], ["home"], ["home", "user"], ["home", "user", ".config"],
          ["home", "user", ".config", "test"]]⟩ (by decide)⟩

/-- C4: the error taxonomy of the structured operations: a file that
cannot be opened surfaces as the `Io` variant (with kind `NotFound` when
nothing exists at the path), content that fails to decode surfaces as
the `Serde` variant; a failing encode surfaces as `Serde`, an I/O
failure while writing the encoded bytes as `Io`; the variants are
distinct. -/
theorem serde_error_taxonomy {T E : Type}
    (decJ decY decT : List Nat → Except E T)
    (enc : T → Except E (List Nat)) (c : HomeConfig) (fs : FileSys)
    (v : T) :
    (fs.pathExists c.path.components = false →
      c.json decJ fs = .error (JsonError.Io ⟨ErrorKind.NotFound⟩)
      ∧ c.yaml decY fs = .error (YamlError.Io ⟨ErrorKind.NotFound⟩)
      ∧ c.toml decT fs = .error (TomlParseError.Io ⟨ErrorKind.NotFound⟩))
    ∧ (∀ bs er, lookupFile fs.files c.path.components = some bs →
        decJ bs = .error er → c.json decJ fs = .error (JsonError.Serde er))
    ∧ (∀ bs er, lookupFile fs.files c.path.components = some bs →
        decY bs = .error er → c.yaml decY fs = .error (YamlError.Serde er))
    ∧ (∀ bs er, lookupFile fs.files c.path.components = some bs →
        decT bs = .error er →
        c.toml decT fs = .error (TomlParseError.Serde er))
    ∧ (∀ er, enc v = .error er →
        c.save_json enc fs v = (.error (JsonError.Serde er), fs)
        ∧ c.save_yaml enc fs v = (.error (YamlError.Serde er), fs)
        ∧ c.save_toml enc fs v = (.error (TomlSaveError.Serde er), fs))
    ∧ (∀ bs eio fsE, enc v = .ok bs → c.save fs bs = (.error eio, fsE) →
        c.save_json enc fs v = (.error (JsonError.Io eio), fsE)
        ∧ c.save_yaml enc fs v = (.error (YamlError.Io eio), fsE)
        ∧ c.save_toml enc fs v = (.error (TomlSaveError.Io eio), fsE))
    ∧ (∀ eio er, (JsonError.Io eio : JsonError E) ≠ JsonError.Serde er
        ∧ (YamlError.Io eio : YamlError E) ≠ YamlError.Serde er
        ∧ (TomlParseError.Io eio : TomlParseError E)
            ≠ TomlParseError.Serde er
        ∧ (TomlSaveError.Io eio : TomlSaveError E)
            ≠ TomlSaveError.Serde er) := by
  refine ⟨?_, ?_, ?_, ?_, ?_, ?_, ?_⟩
  · intro h
    have hr := read_not_found_of h
    exact ⟨by simp [HomeConfig.json, hr], by simp [HomeConfig.yaml, hr],
      by simp [HomeConfig.toml, HomeConfig.read_to_vec, hr]⟩
  · intro bs er hl hd
    simp [HomeConfig.json, read_of_lookup hl, hd]
  · intro bs er hl hd
    simp [HomeConfig.yaml, read_of_lookup hl, hd]
  · intro bs er hl hd
    simp [HomeConfig.toml, HomeConfig.read_to_vec, read_of_lookup hl, hd]
  · intro er he
    exact ⟨by simp [HomeConfig.save_json, he],
      by simp [HomeConfig.save_yaml, he],
      by simp [HomeConfig.save_toml, he]⟩
  · intro bs eio fsE he hs
    exact ⟨save_json_err he hs, save_yaml_err he hs, save_toml_err he hs⟩
  · intro eio er
    refine ⟨?_, ?_, ?_, ?_⟩ <;> intro hck <;> simp at hck

/-- Witness for `serde_error_taxonomy`: on the empty filesystem the
parse reports `Io NotFound`; a failing encoder reports `Serde` and
leaves the state unchanged. -/
theorem serde_error_taxonomy_witness :
    HomeConfig.json (fun _ => (.error () : Except Unit Unit))
        ⟨⟨true, ["home", "user", "cfg"]⟩⟩ ⟨[], []⟩
      = .error (JsonError.Io ⟨ErrorKind.NotFound⟩)
    ∧ HomeConfig.save_json (fun _ => (.error () : Except Unit (List Nat)))
        ⟨⟨true, ["home", "user", "cfg"]⟩⟩ ⟨[], []⟩ ()
      = (.error (JsonError.Serde ()), ⟨[], []⟩) :=
  ⟨((serde_error_taxonomy (fun _ => (.error () : Except Unit Unit))
      (fun _ => .error ()) (fun _ => .error ()) (fun _ => .error ())
      ⟨⟨true, ["home", "user", "cfg"]⟩⟩ ⟨[], []⟩ ()).1 (by decide)).1,
    ((serde_error_taxonomy (fun _ => (.error () : Except Unit Unit))
      (fun _ => .error ()) (fun _ => .error ()) (fun _ => .error ())
      ⟨⟨true, ["home", "user", "cfg"]⟩⟩ ⟨[], []⟩ ()).2.2.2.2.1 ()
      rfl).1⟩

/-- C10: the structured saves encode before touching the filesystem:
when encoding fails, the result is the `Serde` error and the filesystem
state is returned completely unchanged. -/
theorem structured_save_encode_first {T E : Type}
    (enc : T → Except E (List Nat)) (c : HomeConfig) (fs : FileSys)
    (v : T) (er : E) (h : enc v = .error er) :
    c.save_json enc fs v = (.error (JsonError.Serde er), fs)
    ∧ c.save_yaml enc fs v = (.error (YamlError.Serde er), fs)
    ∧ c.save_toml enc fs v = (.error (TomlSaveError.Serde er), fs) := by
  exact ⟨by simp [HomeConfig.save_json, h],
    by simp [HomeConfig.save_yaml, h],
    by simp [HomeConfig.save_toml, h]⟩

/-- Witness for `structured_save_encode_first` with an always-failing
encoder on the empty filesystem. -/
theorem structured_save_encode_first_witness :
    HomeConfig.save_json (fun _ => (.error () : Except Unit (List Nat)))
        ⟨⟨true, ["home", "user", "g"]⟩⟩ ⟨[], []⟩ ()
      = (.error (JsonError.Serde ()), ⟨[], []⟩)
    ∧ HomeConfig.save_yaml (fun _ => (.error () : Except Unit (List Nat)))
        ⟨⟨true, ["home", "user", "g"]⟩⟩ ⟨[], []⟩ ()
      = (.error (YamlError.Serde ()), ⟨[], []⟩)
    ∧ HomeConfig.save_toml (fun _ => (.error () : Except Unit (List Nat)))
        ⟨⟨true, ["home", "user", "g"]⟩⟩ ⟨[], []⟩ ()
      = (.error (TomlSaveError.Serde ()), ⟨[], []⟩) :=
  structured_save_encode_first (fun _ => (.error () : Except Unit (List Nat)))
    ⟨⟨true, ["home", "user", "g"]⟩⟩ ⟨[], []⟩ () () rfl
